import Mathlib

/-!
Verification of the direnv prompt-module core (src/modules/direnv.rs).

Strings are modelled as lists of characters (`Str`); paths are plain
strings, as `PathBuf` conversions in the source are verbatim for valid
unicode.  Fallible Rust code returns `Except`; a Rust panic (an
`unwrap` on a failed operation) is modelled by the `RunResult.panicked`
constructor, distinct from any graceful error value.
-/

namespace Direnv

/-- Model of Rust `&str`/`String`: a list of unicode characters. -/
abbrev Str := List Char

/-- The three-way permission state, from `enum AllowStatus` in the source. -/
inductive AllowStatus where
  | Allowed
  | NotAllowed
  | Denied
deriving DecidableEq, Repr

/-- Error message of `AllowStatus::from_str` in the source. -/
def invalidMsg : Str := "invalid allow status".data

/-- Error message of `AllowStatus::try_from::<u8>` in the source. -/
def intErrMsg : Str := "unknown integer allow status".data

/-- Model of `impl FromStr for AllowStatus`: legacy token decoding.
Tokens `"0"`/`"true"` map to `Allowed`, `"1"` to `NotAllowed`,
`"2"`/`"false"` to `Denied`; anything else is an error. -/
def AllowStatus.from_str (s : Str) : Except Str AllowStatus :=
  if s = "0".data ∨ s = "true".data then .ok .Allowed
  else if s = "1".data then .ok .NotAllowed
  else if s = "2".data ∨ s = "false".data then .ok .Denied
  else .error invalidMsg

/-- Model of `impl TryFrom<u8> for AllowStatus`: integer code decoding.
The source matches on a `u8`; the model takes a natural number and maps
`0`, `1`, `2` to the three variants, everything else to an error. -/
def AllowStatus.tryFromU8 (n : Nat) : Except Str AllowStatus :=
  match n with
  | 0 => .ok .Allowed
  | 1 => .ok .NotAllowed
  | 2 => .ok .Denied
  | _ => .error intErrMsg

/-- Model of `struct DirenvState` from the source: the resolved snapshot. -/
structure DirenvState where
  rc_path : Option Str
  loaded_rc_path : Option Str
  allowed : Option AllowStatus
  loaded_allowed : Option AllowStatus
deriving DecidableEq, Repr

/-- The all-absent starting state of the legacy line scan in
`DirenvState::from_lines` (each local initialised to `None`). -/
def initState : DirenvState := ⟨none, none, none, none⟩

/-- Model of Rust `str::strip_prefix`: `stripPre p s` returns the rest of
`s` after `p` when `p` is a prefix of `s`, and `none` otherwise. -/
def stripPre : Str → Str → Option Str
  | [], s => some s
  | _ :: _, [] => none
  | p :: ps, c :: cs => if p == c then stripPre ps cs else none

/-- Model of Rust `str::trim_start`: drop leading whitespace. -/
def trimL : Str → Str
  | [] => []
  | c :: cs => if c.isWhitespace then trimL cs else c :: cs

/-- Model of Rust `str::trim`: drop leading and trailing whitespace. -/
def trim (s : Str) : Str := (trimL (trimL s).reverse).reverse

/-- Model of Rust `str::lines`: split on newline characters.  (Rust also
drops a final empty line and strips `\r`; neither difference can make a
line match one of the recognised prefixes, nor change a trimmed value
used by the decoder.) -/
def splitLines : Str → List Str
  | [] => [[]]
  | c :: cs =>
    if c = '\n' then [] :: splitLines cs
    else
      match splitLines cs with
      | [] => [[c]]
      | l :: ls => (c :: l) :: ls

/-- The prefix `"Found RC path"` recognised by `from_lines`. -/
def foundPathTag : Str := "Found RC path".data

/-- The prefix `"Found RC allowed"` recognised by `from_lines`. -/
def foundAllowedTag : Str := "Found RC allowed".data

/-- The prefix `"Loaded RC path"` recognised by `from_lines`. -/
def loadedPathTag : Str := "Loaded RC path".data

/-- The prefix `"Loaded RC allowed"` recognised by `from_lines`. -/
def loadedAllowedTag : Str := "Loaded RC allowed".data

/-- One iteration of the `for line in s.lines()` loop in
`DirenvState::from_lines`: the four `strip_prefix` checks in source
order, assigning the trimmed value (an allowed value is parsed and a
parse failure aborts the whole loop via `?`). -/
def processLine (st : DirenvState) (line : Str) : Except Str DirenvState :=
  match stripPre foundPathTag line with
  | some path => .ok { st with rc_path := some (trim path) }
  | none =>
    match stripPre foundAllowedTag line with
    | some value =>
      match AllowStatus.from_str (trim value) with
      | .ok a => .ok { st with allowed := some a }
      | .error e => .error e
    | none =>
      match stripPre loadedPathTag line with
      | some path => .ok { st with loaded_rc_path := some (trim path) }
      | none =>
        match stripPre loadedAllowedTag line with
        | some value =>
          match AllowStatus.from_str (trim value) with
          | .ok a => .ok { st with loaded_allowed := some a }
          | .error e => .error e
        | none => .ok st

/-- The whole line loop of `DirenvState::from_lines`, threading the
mutable state through the lines and propagating the first error. -/
def scanLines (st : DirenvState) : List Str → Except Str DirenvState
  | [] => .ok st
  | l :: ls =>
    match processLine st l with
    | .ok st2 => scanLines st2 ls
    | .error e => .error e

/-- Model of `DirenvState::from_lines`: run the line scan from the
all-`None` state; fail with `"unknown direnv state"` when `rc_path` or
`allowed` is still unset afterwards. -/
def DirenvState.from_lines (s : Str) : Except Str DirenvState :=
  match scanLines initState (splitLines s) with
  | .error e => .error e
  | .ok st =>
    if st.rc_path.isNone || st.allowed.isNone then .error "unknown direnv state".data
    else .ok st

/-- Abstract JSON values, standing for what `serde_json` parses the raw
text into before field-wise deserialisation. -/
inductive Json where
  | null
  | bool (b : Bool)
  | num (n : Int)
  | str (s : Str)
  | arr (elems : List Json)
  | obj (fields : List (Str × Json))

/-- Field lookup in a JSON object (used by the derived `Deserialize`
impls); anything but an object has no fields. -/
def Json.getField (j : Json) (k : Str) : Option Json :=
  match j with
  | .obj fields => (fields.find? (fun f => f.1 == k)).map (fun f => f.2)
  | _ => none

/-- Model of `struct RCStatus` from the source: note that both fields are
non-optional (`allowed: u8`, `path: PathBuf`). -/
structure RCStatus where
  allowed : Nat
  path : Str
deriving DecidableEq, Repr

/-- Model of `struct State` from the source, with serde renames
`foundRC`/`loadedRC`; both fields are non-optional. -/
structure State where
  found_rc : RCStatus
  loaded_rc : RCStatus
deriving DecidableEq, Repr

/-- Model of `struct RawDirenvState` from the source. -/
structure RawDirenvState where
  state : State
deriving DecidableEq, Repr

/-- Derived `Deserialize` for `RCStatus`: requires an object carrying an
integer field `allowed` in `u8` range and a string field `path`.  A JSON
`null` (or any non-object) fails, because neither field is `Option`al. -/
def RCStatus.deserialize (j : Json) : Option RCStatus :=
  match j.getField "allowed".data with
  | some (.num n) =>
    if 0 ≤ n ∧ n < 256 then
      match j.getField "path".data with
      | some (.str p) => some ⟨n.toNat, p⟩
      | _ => none
    else none
  | _ => none

/-- Derived `Deserialize` for `State`: requires fields `foundRC` and
`loadedRC`, each a valid `RCStatus` (so `null` for either fails). -/
def State.deserialize (j : Json) : Option State :=
  match j.getField "foundRC".data with
  | some fj =>
    match RCStatus.deserialize fj with
    | some found =>
      match j.getField "loadedRC".data with
      | some lj => (RCStatus.deserialize lj).map (fun loaded => ⟨found, loaded⟩)
      | none => none
    | none => none
  | none => none

/-- Derived `Deserialize` for `RawDirenvState`: requires a `state` field. -/
def RawDirenvState.deserialize (j : Json) : Option RawDirenvState :=
  match j.getField "state".data with
  | some sj => (State.deserialize sj).map (fun s => ⟨s⟩)
  | none => none

/-- Input of the status parser: the captured raw text together with the
outcome of `serde_json`'s text-level parse of that same text (`none`
when the text is not syntactically valid JSON).  The text-level JSON
grammar itself is a library collaborator and is abstracted into the
`json` field. -/
structure StatusInput where
  text : Str
  json : Option Json

/-- Model of `impl FromStr for DirenvState`: try the structured decode;
when `serde_json` fails, fall back to the legacy line decode of the raw
text.  When the structured decode succeeds, all four fields are
populated as `Some`, and an out-of-range `allowed` code is an error
(the `?` operator), not a fallback. -/
def DirenvState.from_str (input : StatusInput) : Except Str DirenvState :=
  match input.json.bind RawDirenvState.deserialize with
  | some raw =>
    match AllowStatus.tryFromU8 raw.state.found_rc.allowed with
    | .error e => .error e
    | .ok a =>
      match AllowStatus.tryFromU8 raw.state.loaded_rc.allowed with
      | .error e => .error e
      | .ok la =>
        .ok ⟨some raw.state.found_rc.path, some raw.state.loaded_rc.path, some a, some la⟩
  | none => DirenvState.from_lines input.text

/-- Outcome of running a piece of Rust code that may panic: `panicked`
models a Rust panic (an `unwrap` of a failed operation), which is not a
recoverable error value. -/
inductive RunResult (α : Type) where
  | panicked (msg : Str)
  | value (a : α)
deriving DecidableEq, Repr

/-- Panic message of `Result::unwrap` on an `Err` value, raised by
`std::fs::read(...).unwrap()` in `is_rc_allowed`. -/
def unwrapMsg : Str := "called Result unwrap on an Err value".data

/-- The filesystem and library collaborators of the state resolver:
content reads (`none` models a failed read), existence probes, the
user's home directory, and the SHA-256 hex digest (abstracted to an
arbitrary function of the hashed bytes). -/
structure Env where
  read : Str → Option (List Nat)
  pathExists : Str → Bool
  home : Str
  sha256hex : List Nat → Str

/-- UTF-8 encoding of one character (the byte view Rust hashes). -/
def utf8Char (c : Char) : List Nat :=
  let n := c.toNat
  if n < 0x80 then [n]
  else if n < 0x800 then
    [0xC0 ||| (n >>> 6), 0x80 ||| (n &&& 0x3F)]
  else if n < 0x10000 then
    [0xE0 ||| (n >>> 12), 0x80 ||| ((n >>> 6) &&& 0x3F), 0x80 ||| (n &&& 0x3F)]
  else
    [0xF0 ||| (n >>> 18), 0x80 ||| ((n >>> 12) &&& 0x3F), 0x80 ||| ((n >>> 6) &&& 0x3F),
     0x80 ||| (n &&& 0x3F)]

/-- UTF-8 byte encoding of a string. -/
def utf8Bytes (s : Str) : List Nat := s.flatMap utf8Char

/-- Modelled from the spec: tilde expansion (`Context::expand_tilde`
lives outside this repository's sources); a path starting with `~` has
the tilde replaced by the user's home directory (spec section 4.1:
"tilde expanded to the user's home"). -/
def expandTilde (home p : Str) : Str :=
  match p with
  | '~' :: rest => home ++ rest
  | _ => p

/-- Path join (`Path::join` with a relative component). -/
def joinPath (dir name : Str) : Str := dir ++ '/' :: name

/-- The fixed allow-marker store of `is_rc_allowed`, before expansion. -/
def allowDirTilde : Str := "~/.local/share/direnv/allow".data

/-- The fixed deny-marker store of `is_rc_allowed`, before expansion. -/
def denyDirTilde : Str := "~/.local/share/direnv/deny".data

/-- Model of `DirenvState::is_rc_allowed`: `None` path gives no status;
otherwise read the file (the source `unwrap`s the read, so a failed
read panics), hash path-bytes ++ newline ++ content for the allow
marker, and path-bytes ++ newline for the deny marker; the allow probe
is decided first. -/
def is_rc_allowed (env : Env) (path : Option Str) : RunResult (Option AllowStatus) :=
  match path with
  | none => .value none
  | some file_name =>
    match env.read file_name with
    | none => .panicked unwrapMsg
    | some bytes =>
      let allow_hash := env.sha256hex (utf8Bytes file_name ++ 10 :: bytes)
      let allow_file := joinPath (expandTilde env.home allowDirTilde) allow_hash
      if env.pathExists allow_file then .value (some .Allowed)
      else
        let deny_hash := env.sha256hex (utf8Bytes file_name ++ [10])
        let deny_file := joinPath (expandTilde env.home denyDirTilde) deny_hash
        if env.pathExists deny_file then .value (some .Denied)
        else .value (some .NotAllowed)

/-- The caller-supplied context (spec section 6): the current working
directory as a component list under the filesystem root, and the
environment lookup. -/
structure Context where
  current_dir : List Str
  get_env : Str → Option Str

/-- Render a component list as an absolute path string. -/
def pathToStr (comps : List Str) : Str :=
  comps.foldl (fun acc c => acc ++ '/' :: c) []

/-- Model of `Path::ancestors` on the current directory: the directory
itself first, then each parent, ending with the root (`[]`). -/
def ancestorsOf (comps : List Str) : List (List Str) :=
  ((List.range (comps.length + 1)).reverse).map (fun k => comps.take k)

/-- The name of the governing config file searched for by `from_env`. -/
def envrcName : Str := ".envrc".data

/-- The `for path in context.current_dir.ancestors()` loop of
`DirenvState::from_env`: probe `<ancestor>/.envrc` and stop at the
first existing one. -/
def rcLookup (env : Env) : List (List Str) → Option Str
  | [] => none
  | a :: rest =>
    let maybe_path := joinPath (pathToStr a) envrcName
    if env.pathExists maybe_path then some maybe_path else rcLookup env rest

/-- The environment variable naming the session's loaded config file. -/
def direnvFileVar : Str := "DIRENV_FILE".data

/-- Model of `DirenvState::from_env`: discover the nearest `.envrc`,
take `DIRENV_FILE` verbatim as the loaded path, and compute both
permission statuses (whose reads can panic, found side first).  The
source's `Result` return is always `Ok`, so the graceful-error case
does not occur. -/
def from_env (ctx : Context) (env : Env) : RunResult DirenvState :=
  let rc_path := rcLookup env (ancestorsOf ctx.current_dir)
  let loaded_rc_path := ctx.get_env direnvFileVar
  match is_rc_allowed env rc_path with
  | .panicked m => .panicked m
  | .value allowed =>
    match is_rc_allowed env loaded_rc_path with
    | .panicked m => .panicked m
    | .value loaded_allowed => .value ⟨rc_path, loaded_rc_path, allowed, loaded_allowed⟩

/-- Rendered module output: a list of segments. -/
abbrev Segments := List Str

/-- Model of the `module` entry point: resolve the state, suppress all
output when both paths are absent, otherwise hand the state to the
formatter collaborator (`render`; its `none` models a formatting error,
which also yields no output). -/
def module (ctx : Context) (env : Env) (render : DirenvState → Option Segments) :
    RunResult (Option Segments) :=
  match from_env ctx env with
  | .panicked m => .panicked m
  | .value state =>
    if state.rc_path.isNone && state.loaded_rc_path.isNone then .value none
    else
      match render state with
      | some segs => .value (some segs)
      | none => .value none

deriving instance DecidableEq for Except

/-- Boolean success test for an `Except` result. -/
def exOk {α : Type} : Except Str α → Bool
  | .ok _ => true
  | .error _ => false

/-- Spec-side (claim C3): the allow-marker filename is the hex digest of
the hash over the path's UTF-8 bytes, a newline byte, and the file
content, looked up in the per-user allow directory. -/
def allowMarkerPath (env : Env) (p : Str) (content : List Nat) : Str :=
  joinPath (expandTilde env.home allowDirTilde) (env.sha256hex (utf8Bytes p ++ 10 :: content))

/-- Spec-side (claim C3): the deny-marker filename is the hex digest of
the hash over the path's UTF-8 bytes and a newline byte only, looked up
in the per-user deny directory. -/
def denyMarkerPath (env : Env) (p : Str) : Str :=
  joinPath (expandTilde env.home denyDirTilde) (env.sha256hex (utf8Bytes p ++ [10]))

/-- Claim-side (claim C6): a line that reaches one of the two
`allowed`-value branches of the scan with a token that does not parse.
Such a line makes `from_lines` fail immediately. -/
def badAllowLine (line : Str) : Bool :=
  match stripPre foundPathTag line with
  | some _ => false
  | none =>
    match stripPre foundAllowedTag line with
    | some v => !(exOk (AllowStatus.from_str (trim v)))
    | none =>
      match stripPre loadedPathTag line with
      | some _ => false
      | none =>
        match stripPre loadedAllowedTag line with
        | some v => !(exOk (AllowStatus.from_str (trim v)))
        | none => false

/-- Claim-side (claim C6): the effect of one line on the scan state,
made total by letting a failing line leave the state unchanged; used to
express "what is set after scanning all lines". -/
def lineStep (st : DirenvState) (line : Str) : DirenvState :=
  match processLine st line with
  | .ok st2 => st2
  | .error _ => st

/-- Claim-side (claim C6): the state after scanning all lines. -/
def scanTotal (s : Str) : DirenvState := (splitLines s).foldl lineStep initState

/-- Spec-side (claim C7): the common integer-code meaning of the two
external allow-code representations. -/
def specCode (n : Nat) : AllowStatus :=
  match n with
  | 0 => .Allowed
  | 1 => .NotAllowed
  | _ => .Denied

/-- Spec-side (claim C7): the legacy token carrying integer code `n`. -/
def codeToken (n : Nat) : Str :=
  match n with
  | 0 => "0".data
  | 1 => "1".data
  | _ => "2".data

/-- Spec-side (claim C7): the structured record carrying found path
`fp` with code `a` and loaded path `lp` with code `la`. -/
def structuredJson (fp lp : Str) (a la : Nat) : Json :=
  .obj [("state".data, .obj [
    ("foundRC".data, .obj [("allowed".data, .num a), ("path".data, .str fp)]),
    ("loadedRC".data, .obj [("allowed".data, .num la), ("path".data, .str lp)])])]

/-- Spec-side (claim C7): the `"Found RC path"` line of the legacy
encoding. -/
def legacyLine1 (fp : Str) : Str := "Found RC path ".data ++ fp

/-- Spec-side (claim C7): the `"Found RC allowed"` line of the legacy
encoding. -/
def legacyLine2 (a : Nat) : Str := "Found RC allowed ".data ++ codeToken a

/-- Spec-side (claim C7): the `"Loaded RC path"` line of the legacy
encoding. -/
def legacyLine3 (lp : Str) : Str := "Loaded RC path ".data ++ lp

/-- Spec-side (claim C7): the `"Loaded RC allowed"` line of the legacy
encoding. -/
def legacyLine4 (la : Nat) : Str := "Loaded RC allowed ".data ++ codeToken la

/-- Spec-side (claim C7): the legacy block carrying the same state as
`structuredJson fp lp a la`. -/
def legacyText (fp lp : Str) (a la : Nat) : Str :=
  legacyLine1 fp ++ '\n' :: (legacyLine2 a ++ '\n' :: (legacyLine3 lp ++ '\n' :: legacyLine4 la))

/-- Concrete structured record with both sides `null` (claim C1). -/
def c1json : Json := .obj [("state".data, .obj [("foundRC".data, .null), ("loadedRC".data, .null)])]

/-- The inner `state` object of `c1json` (claim C1). -/
def c1state : Json := .obj [("foundRC".data, .null), ("loadedRC".data, .null)]

/-- The raw text behind `c1json` (claim C1). -/
def c1text : Str := "\x7b\"state\": \x7b\"foundRC\": null, \"loadedRC\": null\x7d\x7d".data

/-- Concrete parser input with both sides `null` (claim C1). -/
def c1input : StatusInput := ⟨c1text, some c1json⟩

/-- Concrete context whose working directory is `/a` (claim C2). -/
def c2ctx : Context := ⟨["a".data], fun _ => none⟩

/-- Concrete environment where every path exists but every content read
fails (claim C2). -/
def c2env : Env := ⟨fun _ => none, fun _ => true, "/home/u".data, fun _ => "d".data⟩

/-- Concrete environment where reads succeed and both marker files
exist (claim C3). -/
def c3env : Env := ⟨fun _ => some [65], fun _ => true, "/home/u".data, fun _ => "d".data⟩

/-- Concrete governing file path (claim C3). -/
def c3p : Str := "/proj/.envrc".data

/-- Concrete directory with one component and no `.envrc` anywhere
(claim C4). -/
def c4env : Env := ⟨fun _ => some [], fun _ => false, "/home/u".data, fun _ => "d".data⟩

/-- Concrete context for claim C4's witness. -/
def c4ctx : Context := ⟨["a".data, "b".data], fun _ => none⟩

/-- Legacy input whose required lines are set but whose
`Loaded RC allowed` token is invalid (claim C6). -/
def c6bad : Str := ("Found RC path /x\nFound RC allowed 0\nLoaded RC allowed banana").data

/-- A diagnostic line matching none of the four prefixes (claim C6). -/
def c6noise : Str := "bash_path /usr/bin/bash".data

/-- Concrete found path for claim C7's witness. -/
def c7fp : Str := "/home/u/proj/.envrc".data

/-- Concrete loaded path for claim C7's witness. -/
def c7lp : Str := "/home/u/other/.envrc".data

/-- Concrete context whose `DIRENV_FILE` is present but empty
(claim C8). -/
def c8ctx : Context := ⟨[], fun _ => some []⟩

/-- Concrete context whose `DIRENV_FILE` holds a path (claim C8). -/
def c8wctx : Context := ⟨[], fun _ => some "/p/.envrc".data⟩

/-- Concrete environment with readable files and no markers or `.envrc`
files (claim C8). -/
def c8env : Env := ⟨fun _ => some [], fun _ => false, "/home/u".data, fun _ => "d".data⟩

/-- Concrete environment with no `.envrc` anywhere (claim C9). -/
def c9env : Env := ⟨fun _ => some [], fun _ => false, "/home/u".data, fun _ => "d".data⟩

/-- Concrete context with no loaded file (claim C9). -/
def c9ctx : Context := ⟨["a".data], fun _ => none⟩

/-- Legacy input with found lines and a loaded allow line but no loaded
path line (claim C10). -/
def c10input : Str := ("Found RC path /p/.envrc\nFound RC allowed 0\nLoaded RC allowed 1").data

/-- Stripping a prefix from a string it heads yields the remainder. -/
theorem stripPre_self (p r : Str) : stripPre p (p ++ r) = some r := by
  induction p with
  | nil => rfl
  | cons c cs ih => simp [stripPre, ih]

/-- The inner rc-discovery loop is a first-match search. -/
theorem rcLookup_find (env : Env) (l : List (List Str)) :
    rcLookup env l =
      (l.find? (fun a => env.pathExists (joinPath (pathToStr a) envrcName))).map
        (fun a => joinPath (pathToStr a) envrcName) := by
  induction l with
  | nil => rfl
  | cons a rest ih =>
    by_cases h : env.pathExists (joinPath (pathToStr a) envrcName) <;>
      simp [rcLookup, List.find?, h, ih]

/-- Dissection of `from_env` in its non-panicking case: the resolved
fields are exactly the discovery results. -/
theorem from_env_value (ctx : Context) (env : Env) (st : DirenvState)
    (h : from_env ctx env = .value st) :
    st.rc_path = rcLookup env (ancestorsOf ctx.current_dir) ∧
    st.loaded_rc_path = ctx.get_env direnvFileVar := by
  simp only [from_env] at h
  cases h1 : is_rc_allowed env (rcLookup env (ancestorsOf ctx.current_dir)) with
  | panicked m => rw [h1] at h; cases h
  | value allowed =>
    rw [h1] at h
    cases h2 : is_rc_allowed env (ctx.get_env direnvFileVar) with
    | panicked m => rw [h2] at h; cases h
    | value la =>
      rw [h2] at h
      simp only [] at h
      cases h
      exact ⟨rfl, rfl⟩

/-- C2 (counterexample): in an environment where the governing file's
content read fails, the module run panics instead of surfacing an error
value and producing no output. -/
theorem c2_counterexample :
    Direnv.module c2ctx c2env (fun _ => some [[]]) = .panicked unwrapMsg := by decide

/-- C2 (amended): when the rc discovery finds a governing file whose
content read fails, the resolution does not surface an error value: it
panics (the source `unwrap`s the result of `std::fs::read`), aborting
the run instead of degrading to "no output". -/
theorem c2_read_failure_panics (ctx : Context) (env : Env) (p : Str)
    (hfind : rcLookup env (ancestorsOf ctx.current_dir) = some p)
    (hread : env.read p = none) :
    from_env ctx env = .panicked unwrapMsg := by
  simp [from_env, is_rc_allowed, hfind, hread]

/-- Witness for C2's amended theorem at a concrete input. -/
theorem c2_witness :
    rcLookup c2env (ancestorsOf c2ctx.current_dir) = some "/a/.envrc".data ∧
    from_env c2ctx c2env = .panicked unwrapMsg := by
  refine ⟨by decide, ?_⟩
  exact c2_read_failure_panics c2ctx c2env "/a/.envrc".data (by decide) rfl

/-- C3: with a readable file, the permission computation returns
`Allowed` exactly when the allow marker (hash of path bytes, newline,
content) exists — regardless of the deny marker — otherwise `Denied`
exactly when the deny marker (hash of path bytes and newline) exists,
otherwise `NotAllowed`. -/
theorem c3_permission_precedence (env : Env) (p : Str) (content : List Nat)
    (hread : env.read p = some content) :
    (is_rc_allowed env (some p) = .value (some .Allowed) ↔
       env.pathExists (allowMarkerPath env p content) = true)
  ∧ (is_rc_allowed env (some p) = .value (some .Denied) ↔
       env.pathExists (allowMarkerPath env p content) = false ∧
       env.pathExists (denyMarkerPath env p) = true)
  ∧ (is_rc_allowed env (some p) = .value (some .NotAllowed) ↔
       env.pathExists (allowMarkerPath env p content) = false ∧
       env.pathExists (denyMarkerPath env p) = false) := by
  simp only [is_rc_allowed, allowMarkerPath, denyMarkerPath, hread]
  by_cases h1 : env.pathExists
      (joinPath (expandTilde env.home allowDirTilde) (env.sha256hex (utf8Bytes p ++ 10 :: content))) <;>
    by_cases h2 : env.pathExists
      (joinPath (expandTilde env.home denyDirTilde) (env.sha256hex (utf8Bytes p ++ [10]))) <;>
    simp [h1, h2]

/-- Witness for C3 at a concrete input where both markers exist: the
allow marker wins. -/
theorem c3_witness :
    c3env.read c3p = some [65]
  ∧ c3env.pathExists (denyMarkerPath c3env c3p) = true
  ∧ is_rc_allowed c3env (some c3p) = .value (some .Allowed) := by
  refine ⟨rfl, rfl, ?_⟩
  exact (c3_permission_precedence c3env c3p [65] rfl).1.mpr rfl

/-- C4: the resolved `rc_path` is the nearest ancestor (the directory
itself first, then each parent up to the root) containing `.envrc`,
joined with `.envrc`; it is absent exactly when no ancestor contains
one; and the non-panicking resolution's `rc_path` field is that lookup. -/
theorem c4_nearest_ancestor :
    (∀ (env : Env) (dir : List Str),
       rcLookup env (ancestorsOf dir) =
         ((ancestorsOf dir).find? (fun a => env.pathExists (joinPath (pathToStr a) envrcName))).map
           (fun a => joinPath (pathToStr a) envrcName))
  ∧ (∀ (env : Env) (dir : List Str),
       (rcLookup env (ancestorsOf dir) = none ↔
         ∀ a ∈ ancestorsOf dir, env.pathExists (joinPath (pathToStr a) envrcName) = false))
  ∧ (∀ dir : List Str, (ancestorsOf dir).head? = some dir)
  ∧ (∀ (ctx : Context) (env : Env) (st : DirenvState),
       from_env ctx env = .value st → st.rc_path = rcLookup env (ancestorsOf ctx.current_dir)) := by
  refine ⟨fun env dir => rcLookup_find env (ancestorsOf dir), ?_, ?_, ?_⟩
  · intro env dir
    rw [rcLookup_find]
    simp [List.find?_eq_none]
  · intro dir
    simp [ancestorsOf, List.range_succ]
  · intro ctx env st h
    exact (from_env_value ctx env st h).1

/-- Witness for C4's hypothesised conjunct at a concrete input. -/
theorem c4_witness :
    from_env c4ctx c4env = .value ⟨none, none, none, none⟩ ∧
    (⟨none, none, none, none⟩ : DirenvState).rc_path = rcLookup c4env (ancestorsOf c4ctx.current_dir) := by
  refine ⟨by decide, ?_⟩
  exact c4_nearest_ancestor.2.2.2 c4ctx c4env ⟨none, none, none, none⟩ (by decide)

/-- C5: the two allow-code conversions are total and fail closed:
integers `0`, `1`, `2` map to `Allowed`, `NotAllowed`, `Denied` and
every other integer is an error; tokens `"0"`/`"true"`, `"1"`,
`"2"`/`"false"` map likewise and every other token is an error. -/
theorem c5_allow_code_conversions :
    (AllowStatus.tryFromU8 0 = .ok .Allowed ∧ AllowStatus.tryFromU8 1 = .ok .NotAllowed ∧
       AllowStatus.tryFromU8 2 = .ok .Denied)
  ∧ (∀ n : Nat, n ≠ 0 → n ≠ 1 → n ≠ 2 → AllowStatus.tryFromU8 n = .error intErrMsg)
  ∧ (AllowStatus.from_str "0".data = .ok .Allowed ∧ AllowStatus.from_str "true".data = .ok .Allowed ∧
     AllowStatus.from_str "1".data = .ok .NotAllowed ∧
     AllowStatus.from_str "2".data = .ok .Denied ∧ AllowStatus.from_str "false".data = .ok .Denied)
  ∧ (∀ s : Str, s ≠ "0".data → s ≠ "true".data → s ≠ "1".data → s ≠ "2".data → s ≠ "false".data →
       AllowStatus.from_str s = .error invalidMsg) := by
  refine ⟨⟨rfl, rfl, rfl⟩, ?_, ⟨rfl, rfl, rfl, rfl, rfl⟩, ?_⟩
  · intro n h0 h1 h2
    match n with
    | 0 => exact absurd rfl h0
    | 1 => exact absurd rfl h1
    | 2 => exact absurd rfl h2
    | m + 3 => rfl
  · intro s h0 ht h1 h2 hf
    unfold AllowStatus.from_str
    rw [if_neg (show ¬(s = "0".data ∨ s = "true".data) from by rintro (h | h); exacts [h0 h, ht h])]
    rw [if_neg h1]
    rw [if_neg (show ¬(s = "2".data ∨ s = "false".data) from by rintro (h | h); exacts [h2 h, hf h])]

/-- Witness for C5's hypothesised conjuncts at concrete inputs. -/
theorem c5_witness :
    AllowStatus.tryFromU8 7 = .error intErrMsg ∧
    AllowStatus.from_str "banana".data = .error invalidMsg :=
  ⟨c5_allow_code_conversions.2.1 7 (by decide) (by decide) (by decide),
   c5_allow_code_conversions.2.2.2 "banana".data (by decide) (by decide) (by decide) (by decide)
     (by decide)⟩

/-- C8 (counterexample): with `DIRENV_FILE` present but empty, the
resolved `loaded_rc_path` is the empty path, not absent. -/
theorem c8_counterexample :
    c8ctx.get_env direnvFileVar = some [] ∧
    from_env c8ctx c8env = .value ⟨none, some [], none, some .NotAllowed⟩ :=
  ⟨rfl, by decide⟩

/-- C8 (amended): the resolved `loaded_rc_path` is the value of
`DIRENV_FILE` verbatim exactly when the variable is present — with no
existence check and no emptiness check — and absent exactly when the
variable is absent. -/
theorem c8_loaded_verbatim (ctx : Context) (env : Env) (st : DirenvState)
    (h : from_env ctx env = .value st) :
    st.loaded_rc_path = ctx.get_env direnvFileVar :=
  (from_env_value ctx env st h).2

/-- Witness for C8's amended theorem at a concrete input. -/
theorem c8_witness :
    from_env c8wctx c8env = .value ⟨none, some "/p/.envrc".data, none, some .NotAllowed⟩ ∧
    (⟨none, some "/p/.envrc".data, none, some .NotAllowed⟩ : DirenvState).loaded_rc_path =
      c8wctx.get_env direnvFileVar := by
  refine ⟨by decide, ?_⟩
  exact c8_loaded_verbatim c8wctx c8env _ (by decide)

/-- C9: when the resolved state has both `rc_path` and `loaded_rc_path`
absent, the module produces no output at all, whatever the renderer
would do — the suppression happens before rendering. -/
theorem c9_suppression (ctx : Context) (env : Env) (render : DirenvState → Option Segments)
    (st : DirenvState) (h : from_env ctx env = .value st)
    (h1 : st.rc_path = none) (h2 : st.loaded_rc_path = none) :
    Direnv.module ctx env render = .value none := by
  unfold Direnv.module
  rw [h]
  simp [h1, h2]

/-- Witness for C9 at a concrete input whose renderer would produce a
segment. -/
theorem c9_witness :
    from_env c9ctx c9env = .value ⟨none, none, none, none⟩ ∧
    Direnv.module c9ctx c9env (fun _ => some [[]]) = .value none := by
  refine ⟨by decide, ?_⟩
  exact c9_suppression c9ctx c9env _ ⟨none, none, none, none⟩ (by decide) rfl rfl

/-- C10: the legacy decode accepts found-path, found-allowed and
loaded-allowed lines without any loaded-path line, yielding a state with
`loaded_allowed` present while `loaded_rc_path` is absent. -/
theorem c10_loaded_status_without_path :
    DirenvState.from_lines c10input =
      .ok ⟨some "/p/.envrc".data, none, some .Allowed, some .NotAllowed⟩ := by decide

/-- A JSON `null` cannot deserialise as an `RCStatus`. -/
theorem rcstatus_null : RCStatus.deserialize Json.null = none := rfl

/-- C1 (counterexample): a structured record with `foundRC` and
`loadedRC` both `null` does not decode to a state with absent sides —
the whole parse errors (the structured decode fails and the JSON text
does not satisfy the legacy format either). -/
theorem c1_counterexample :
    c1input.json = some c1json ∧
    DirenvState.from_str c1input = .error "unknown direnv state".data :=
  ⟨rfl, rfl⟩

/-- C1 (amended): a `null` or absent `foundRC` or `loadedRC` makes the
structured decode fail — the `RCStatus` fields are non-optional — so
the parser falls back to the legacy line decode of the raw text; the
structured decode never produces a state with an absent side. -/
theorem c1_null_side_fails_structured (input : StatusInput) (j sj : Json)
    (hj : input.json = some j) (hs : j.getField "state".data = some sj)
    (hnull : sj.getField "foundRC".data = some .null ∨ sj.getField "foundRC".data = none ∨
             sj.getField "loadedRC".data = some .null ∨ sj.getField "loadedRC".data = none) :
    DirenvState.from_str input = DirenvState.from_lines input.text := by
  have hst : State.deserialize sj = none := by
    unfold State.deserialize
    split
    next fj hf =>
      split
      next found hrf =>
        split
        next lj hl =>
          rcases hnull with h | h | h | h
          · rw [hf] at h
            injection h with h
            subst h
            rw [rcstatus_null] at hrf
            cases hrf
          · rw [hf] at h
            cases h
          · rw [hl] at h
            injection h with h
            subst h
            rw [rcstatus_null]
            rfl
          · rw [hl] at h
            cases h
        next hl => rfl
      next hrf => rfl
    next hf => rfl
  have hdes : RawDirenvState.deserialize j = none := by
    unfold RawDirenvState.deserialize
    simp only [hs, hst, Option.map_none']
  unfold DirenvState.from_str
  rw [hj]
  simp [hdes]

/-- Witness for C1's amended theorem at the concrete all-`null` input. -/
theorem c1_witness :
    DirenvState.from_str c1input = DirenvState.from_lines c1input.text :=
  c1_null_side_fails_structured c1input c1json c1state rfl rfl (Or.inl rfl)

/-- A token rejected by `AllowStatus::from_str` yields exactly the
`"invalid allow status"` error. -/
theorem from_str_err (v : Str) (h : exOk (AllowStatus.from_str v) = false) :
    AllowStatus.from_str v = .error invalidMsg := by
  unfold AllowStatus.from_str at h ⊢
  split_ifs at h ⊢ <;> simp_all [exOk]

/-- A line with a bad allowed token makes the line processor fail with
the token-parse error. -/
theorem processLine_err_of_bad (st : DirenvState) (line : Str) (h : badAllowLine line = true) :
    processLine st line = .error invalidMsg := by
  unfold badAllowLine at h
  unfold processLine
  split at h
  next path hp => cases h
  next hp =>
    split at h
    next v hv =>
      have hb : exOk (AllowStatus.from_str (trim v)) = false := by
        cases hx : exOk (AllowStatus.from_str (trim v)) with
        | false => rfl
        | true => rw [hx] at h; simp at h
      rw [from_str_err (trim v) hb]
    next hv =>
      split at h
      next path hl => cases h
      next hl =>
        split at h
        next v hv2 =>
          have hb : exOk (AllowStatus.from_str (trim v)) = false := by
            cases hx : exOk (AllowStatus.from_str (trim v)) with
            | false => rfl
            | true => rw [hx] at h; simp at h
          rw [from_str_err (trim v) hb]
        next hv2 => cases h

/-- A line without a bad allowed token is processed without error, and
its effect is `lineStep`. -/
theorem processLine_ok_of_good (st : DirenvState) (line : Str) (h : badAllowLine line = false) :
    processLine st line = .ok (lineStep st line) := by
  unfold lineStep
  unfold badAllowLine at h
  unfold processLine
  split at h
  next path hp => rfl
  next hp =>
    split at h
    next v hv =>
      cases hx : AllowStatus.from_str (trim v) with
      | ok a => rfl
      | error e =>
        rw [hx] at h
        simp [exOk] at h
    next hv =>
      split at h
      next path hl => rfl
      next hl =>
        split at h
        next v hv2 =>
          cases hx : AllowStatus.from_str (trim v) with
          | ok a => rfl
          | error e =>
            rw [hx] at h
            simp [exOk] at h
        next hv2 => rfl

/-- Characterisation of the whole line loop: it succeeds exactly when
no line has a bad allowed token, in which case its result is the total
fold, and the only error is the token-parse error. -/
theorem scanLines_char (ls : List Str) : ∀ st : DirenvState,
    scanLines st ls =
      if ls.all (fun l => !badAllowLine l) then .ok (ls.foldl lineStep st)
      else .error invalidMsg := by
  induction ls with
  | nil => intro st; simp [scanLines]
  | cons l ls ih =>
    intro st
    cases hb : badAllowLine l with
    | false =>
      simp [scanLines, processLine_ok_of_good st l hb, ih, List.all_cons, hb]
    | true =>
      simp [scanLines, processLine_err_of_bad st l hb, List.all_cons, hb]

/-- C6 (counterexample): a legacy input whose scan sets both `rc_path`
and `allowed` can still fail to decode (its `Loaded RC allowed` token
is invalid), so "fails iff `rc_path` or `allowed` is unset after
scanning" does not hold. -/
theorem c6_counterexample :
    ¬ (exOk (DirenvState.from_lines c6bad) = false ↔
        ((scanTotal c6bad).rc_path.isNone || (scanTotal c6bad).allowed.isNone) = true) := by
  decide

/-- C6 (amended): the legacy decode fails exactly when some line
carries an unparseable allowed token, or, after scanning all lines,
`rc_path` or `allowed` is still unset; lines matching none of the four
prefixes are ignored without failing. -/
theorem c6_failure_condition :
    (∀ s : Str,
       exOk (DirenvState.from_lines s) =
         (((splitLines s).all fun l => !badAllowLine l) &&
           ((scanTotal s).rc_path.isSome && (scanTotal s).allowed.isSome)))
  ∧ (∀ (st : DirenvState) (line : Str),
       stripPre foundPathTag line = none → stripPre foundAllowedTag line = none →
       stripPre loadedPathTag line = none → stripPre loadedAllowedTag line = none →
       processLine st line = .ok st) := by
  constructor
  · intro s
    unfold DirenvState.from_lines scanTotal
    rw [scanLines_char]
    cases hall : (splitLines s).all fun l => !badAllowLine l with
    | false => simp [exOk]
    | true =>
      simp only [if_pos rfl]
      cases hrc : ((splitLines s).foldl lineStep initState).rc_path <;>
        cases hal : ((splitLines s).foldl lineStep initState).allowed <;>
        simp [exOk, hrc, hal]
  · intro st line h1 h2 h3 h4
    unfold processLine
    rw [h1, h2, h3, h4]

/-- Witness for C6's amended theorem: a concrete diagnostic line is
ignored by the line processor. -/
theorem c6_witness :
    stripPre foundPathTag c6noise = none ∧ processLine initState c6noise = .ok initState :=
  ⟨rfl, c6_failure_condition.2 initState c6noise rfl rfl rfl rfl⟩

/-- Trimming is unaffected by one leading space. -/
theorem trim_cons_space (s : Str) : trim (' ' :: s) = trim s := rfl

/-- A newline-free string is a single line. -/
theorem splitLines_nmem (a : Str) (h : '\n' ∉ a) : splitLines a = [a] := by
  induction a with
  | nil => rfl
  | cons c cs ih =>
    have hc : ¬ c = '\n' := fun e => h (by rw [e]; exact List.mem_cons_self _ _)
    have hcs : '\n' ∉ cs := fun m => h (List.mem_cons_of_mem c m)
    simp [splitLines, hc, ih hcs]

/-- Splitting after a newline-free first line peels it off. -/
theorem splitLines_append_nl (a rest : Str) (h : '\n' ∉ a) :
    splitLines (a ++ '\n' :: rest) = a :: splitLines rest := by
  induction a with
  | nil => simp [splitLines]
  | cons c cs ih =>
    have hc : ¬ c = '\n' := fun e => h (by rw [e]; exact List.mem_cons_self _ _)
    have hcs : '\n' ∉ cs := fun m => h (List.mem_cons_of_mem c m)
    simp [splitLines, List.cons_append, hc, ih hcs]

/-- A legacy code token never holds a newline. -/
theorem codeToken_no_nl (n : Nat) : '\n' ∉ codeToken n := by
  match n with
  | 0 => decide
  | 1 => decide
  | m + 2 => exact show '\n' ∉ "2".data by decide

/-- The legacy token of a code parses to the same status as the code. -/
theorem from_str_codeToken (n : Nat) :
    AllowStatus.from_str (trim (' ' :: codeToken n)) = .ok (specCode n) := by
  match n with
  | 0 => rfl
  | 1 => rfl
  | m + 2 => rfl

/-- Line 1 of the legacy block sets `rc_path`. -/
theorem processLine_line1 (st : DirenvState) (fp : Str) :
    processLine st (legacyLine1 fp) = .ok { st with rc_path := some (trim fp) } := by
  unfold processLine
  rw [show legacyLine1 fp = foundPathTag ++ (' ' :: fp) from rfl, stripPre_self]
  simp [trim_cons_space]

/-- Line 2 of the legacy block sets `allowed` from the token. -/
theorem processLine_line2 (st : DirenvState) (a : Nat) :
    processLine st (legacyLine2 a) = .ok { st with allowed := some (specCode a) } := by
  unfold processLine
  rw [show stripPre foundPathTag (legacyLine2 a) = none from rfl]
  rw [show legacyLine2 a = foundAllowedTag ++ (' ' :: codeToken a) from rfl, stripPre_self]
  simp [from_str_codeToken]

/-- Line 3 of the legacy block sets `loaded_rc_path`. -/
theorem processLine_line3 (st : DirenvState) (lp : Str) :
    processLine st (legacyLine3 lp) = .ok { st with loaded_rc_path := some (trim lp) } := by
  unfold processLine
  rw [show stripPre foundPathTag (legacyLine3 lp) = none from rfl]
  rw [show stripPre foundAllowedTag (legacyLine3 lp) = none from rfl]
  rw [show legacyLine3 lp = loadedPathTag ++ (' ' :: lp) from rfl, stripPre_self]
  simp [trim_cons_space]

/-- Line 4 of the legacy block sets `loaded_allowed` from the token. -/
theorem processLine_line4 (st : DirenvState) (la : Nat) :
    processLine st (legacyLine4 la) = .ok { st with loaded_allowed := some (specCode la) } := by
  unfold processLine
  rw [show stripPre foundPathTag (legacyLine4 la) = none from rfl]
  rw [show stripPre foundAllowedTag (legacyLine4 la) = none from rfl]
  rw [show stripPre loadedPathTag (legacyLine4 la) = none from rfl]
  rw [show legacyLine4 la = loadedAllowedTag ++ (' ' :: codeToken la) from rfl, stripPre_self]
  simp [from_str_codeToken]

/-- The legacy block decodes to the encoded state. -/
theorem from_lines_legacy (fp lp : Str) (a la : Nat)
    (hfp : trim fp = fp) (hlp : trim lp = lp) (hfpn : '\n' ∉ fp) (hlpn : '\n' ∉ lp) :
    DirenvState.from_lines (legacyText fp lp a la) =
      .ok ⟨some fp, some lp, some (specCode a), some (specCode la)⟩ := by
  have h1 : '\n' ∉ legacyLine1 fp := by
    unfold legacyLine1
    intro hm
    rcases List.mem_append.mp hm with hm | hm
    · exact absurd hm (by decide)
    · exact hfpn hm
  have h2 : '\n' ∉ legacyLine2 a := by
    unfold legacyLine2
    intro hm
    rcases List.mem_append.mp hm with hm | hm
    · exact absurd hm (by decide)
    · exact codeToken_no_nl a hm
  have h3 : '\n' ∉ legacyLine3 lp := by
    unfold legacyLine3
    intro hm
    rcases List.mem_append.mp hm with hm | hm
    · exact absurd hm (by decide)
    · exact hlpn hm
  have h4 : '\n' ∉ legacyLine4 la := by
    unfold legacyLine4
    intro hm
    rcases List.mem_append.mp hm with hm | hm
    · exact absurd hm (by decide)
    · exact codeToken_no_nl la hm
  have hsplit : splitLines (legacyText fp lp a la) =
      [legacyLine1 fp, legacyLine2 a, legacyLine3 lp, legacyLine4 la] := by
    unfold legacyText
    rw [splitLines_append_nl _ _ h1, splitLines_append_nl _ _ h2, splitLines_append_nl _ _ h3,
      splitLines_nmem _ h4]
  unfold DirenvState.from_lines
  rw [hsplit]
  simp only [scanLines, processLine_line1, processLine_line2, processLine_line3,
    processLine_line4, hfp, hlp]
  rfl

/-- C7: a structured record and a legacy block encoding the same state
(same found and loaded paths, allow codes below three under the two
formats' mappings) decode to identical `DirenvState` values, namely the
encoded one; with code `0` for the found side, both yield `Allowed`. -/
theorem c7_format_equivalence (fp lp t : Str) (a la : Nat) (ha : a < 3) (hla : la < 3)
    (hfp : trim fp = fp) (hlp : trim lp = lp) (hfpn : '\n' ∉ fp) (hlpn : '\n' ∉ lp) :
    DirenvState.from_str ⟨t, some (structuredJson fp lp a la)⟩ =
      DirenvState.from_lines (legacyText fp lp a la)
  ∧ DirenvState.from_str ⟨t, some (structuredJson fp lp a la)⟩ =
      .ok ⟨some fp, some lp, some (specCode a), some (specCode la)⟩ := by
  have hstr : DirenvState.from_str ⟨t, some (structuredJson fp lp a la)⟩ =
      .ok ⟨some fp, some lp, some (specCode a), some (specCode la)⟩ := by
    have h3 : a = 0 ∨ a = 1 ∨ a = 2 := by omega
    have h3l : la = 0 ∨ la = 1 ∨ la = 2 := by omega
    rcases h3 with rfl | rfl | rfl <;> rcases h3l with rfl | rfl | rfl <;> rfl
  refine ⟨?_, hstr⟩
  rw [hstr, from_lines_legacy fp lp a la hfp hlp hfpn hlpn]

/-- Witness for C7 at concrete paths, with found code `0` (`Allowed`)
and loaded code `1`. -/
theorem c7_witness :
    DirenvState.from_str ⟨[], some (structuredJson c7fp c7lp 0 1)⟩ =
      DirenvState.from_lines (legacyText c7fp c7lp 0 1)
  ∧ DirenvState.from_str ⟨[], some (structuredJson c7fp c7lp 0 1)⟩ =
      .ok ⟨some c7fp, some c7lp, some .Allowed, some .NotAllowed⟩ :=
  c7_format_equivalence c7fp c7lp [] 0 1 (by decide) (by decide) (by decide) (by decide)
    (by decide) (by decide)

end Direnv
